import Mathlib

/-!
# Verification of the switchyard low-level device abstraction

Shallow embedding of `switchyard/lib/common.py`: the `Interface` data model
with its address-coercion setters, and the `LLNetBase` registry with its
lookup operations and port aliases.  The typed address values (`EthAddr`,
`IPAddr`) live in `switchyard.lib.address`, which is not part of the sources
under verification; they are modelled from the specification's AddressValue
contract (canonical string construction, canonical equality and formatting).
The abstract packet-I/O contract (`recv_packet`, `send_packet`, `shutdown`)
has no concrete body in the sources; its state machine is modelled from the
specification.
-/

/-- Modelled from the spec: the error raised when a malformed address string
reaches a coercion site (`AddressFormatError`, §7).  The concrete address
module is not among the sources. -/
inductive AddrError where
  | AddressFormatError
deriving DecidableEq, Repr

/-- Errors surfaced by registry lookups on a node: `UnknownDeviceError` is the
spec's name for the `SwitchyException` raised by the lookup methods, and
`AddressFormatError` propagates from address coercion. -/
inductive NodeError where
  | UnknownDeviceError
  | AddressFormatError
deriving DecidableEq, Repr

/-! ## Character-level helpers for the modelled address parsers -/

/-- Value of a decimal digit character, `none` for non-digits. -/
def decVal (c : Char) : Option Nat :=
  if 48 ≤ c.toNat ∧ c.toNat ≤ 57 then some (c.toNat - 48) else none

/-- Value of a hexadecimal digit character (both cases), `none` otherwise. -/
def hexVal (c : Char) : Option Nat :=
  if 48 ≤ c.toNat ∧ c.toNat ≤ 57 then some (c.toNat - 48)
  else if 97 ≤ c.toNat ∧ c.toNat ≤ 102 then some (c.toNat - 87)
  else if 65 ≤ c.toNat ∧ c.toNat ≤ 70 then some (c.toNat - 55)
  else none

/-- The canonical (lowercase) character for a hex digit value. -/
def hexDigit (d : Nat) : Char :=
  if d < 10 then Char.ofNat (48 + d) else Char.ofNat (87 + d)

/-- The character for a decimal digit value. -/
def decDigit (d : Nat) : Char := Char.ofNat (48 + d)

/-- Split a character list on a separator; always returns at least one group,
and the groups never contain the separator. -/
def splitOnCh (sep : Char) : List Char → List (List Char)
  | [] => [[]]
  | c :: rest =>
    if c = sep then [] :: splitOnCh sep rest
    else
      match splitOnCh sep rest with
      | [] => [[c]]
      | g :: gs => (c :: g) :: gs

/-- Join character-list groups with a separator character. -/
def joinSep (sep : Char) : List (List Char) → List Char
  | [] => []
  | [g] => g
  | g :: gs => g ++ sep :: joinSep sep gs

/-- Parse a run of decimal digits with an accumulator. -/
def decRun : List Char → Nat → Option Nat
  | [], acc => some acc
  | c :: rest, acc =>
    match decVal c with
    | some d => decRun rest (10 * acc + d)
    | none => none

/-- Parse one dotted-quad component: a nonempty digit run whose value fits in
one octet. -/
def parseDecPart (cs : List Char) : Option Nat :=
  match cs with
  | [] => none
  | _ =>
    match decRun cs 0 with
    | some v => if v ≤ 255 then some v else none
    | none => none

/-- Parse one MAC component: exactly two hex digits. -/
def parseHexPair (cs : List Char) : Option Nat :=
  match cs with
  | [a, b] =>
    match hexVal a, hexVal b with
    | some x, some y => some (16 * x + y)
    | _, _ => none
  | _ => none

/-- Parse every group with `f`, succeeding only when all groups parse. -/
def parseAll (f : List Char → Option Nat) : List (List Char) → Option (List Nat)
  | [] => some []
  | p :: ps =>
    match f p, parseAll f ps with
    | some v, some vs => some (v :: vs)
    | _, _ => none

/-- Render one octet as (up to three) decimal digits, no leading zeros. -/
def renderDecByte (n : Nat) : List Char :=
  if n < 10 then [decDigit n]
  else if n < 100 then [decDigit (n / 10), decDigit (n % 10)]
  else [decDigit (n / 100), decDigit (n / 10 % 10), decDigit (n % 10)]

/-- Render one octet as exactly two lowercase hex digits. -/
def renderHexByte (n : Nat) : List Char :=
  [hexDigit (n / 16), hexDigit (n % 16)]

/-! ## The modelled typed address values -/

/-- Modelled from the spec: the typed 48-bit MAC address value from
`switchyard.lib.address` (not among the sources): a typed wrapper whose
underlying bits are immutable, constructed from its canonical string form,
with canonical equality and string formatting (§3 AddressValue). -/
structure EthAddr where
  bytes : List Nat
deriving DecidableEq, Repr

/-- Modelled from the spec: the typed 32-bit IPv4 address value from
`switchyard.lib.address` (not among the sources). -/
structure IPAddr where
  bytes : List Nat
deriving DecidableEq, Repr

/-- Modelled from the spec: construction of an `EthAddr` from its string form
(`aa:bb:cc:dd:ee:ff`, six colon-separated hex pairs); a malformed string
fails with `AddressFormatError`. -/
def EthAddr.parse (s : String) : Except AddrError EthAddr :=
  let parts := splitOnCh ':' s.data
  if parts.length = 6 then
    match parseAll parseHexPair parts with
    | some bs => .ok ⟨bs⟩
    | none => .error .AddressFormatError
  else .error .AddressFormatError

/-- Modelled from the spec: canonical string formatting of an `EthAddr`
(lowercase hex pairs joined by colons). -/
def EthAddr.to_string (a : EthAddr) : String :=
  ⟨joinSep ':' (a.bytes.map renderHexByte)⟩

/-- Modelled from the spec: construction of an `IPAddr` from its dotted-quad
string form; a malformed string fails with `AddressFormatError`. -/
def IPAddr.parse (s : String) : Except AddrError IPAddr :=
  let parts := splitOnCh '.' s.data
  if parts.length = 4 then
    match parseAll parseDecPart parts with
    | some bs => .ok ⟨bs⟩
    | none => .error .AddressFormatError
  else .error .AddressFormatError

/-- Modelled from the spec: canonical dotted-quad formatting of an `IPAddr`. -/
def IPAddr.to_string (a : IPAddr) : String :=
  ⟨joinSep '.' (a.bytes.map renderDecByte)⟩

/-! ## Dynamically-typed values flowing through the setters

The Python setters dispatch on the runtime type of their argument
(`isinstance` checks), so the embedding needs a sum of the possible runtime
values: a typed MAC, a typed IP, a string, `None`, and an opaque value of any
other type (the permissive-fallback branch stores these untouched). -/

/-- A Python runtime value as seen by the `Interface` address setters. -/
inductive PyVal where
  | eth (a : EthAddr)
  | ip (a : IPAddr)
  | str (s : String)
  | pynone
  | other (n : Nat)
deriving DecidableEq, Repr

/-- Python `str()` of a stored value: typed addresses format canonically
(modelled from the spec's AddressValue contract), strings are themselves. -/
def PyVal.render : PyVal → String
  | .eth a => a.to_string
  | .ip a => a.to_string
  | .str s => s
  | .pynone => "None"
  | .other _ => "<object>"

/-! ## The `Interface` record (`common.py` lines 52-114) -/

/-- `Interface`: a name plus three address fields.  The name-mangled private
attributes `__name`, `__ethaddr`, `__ipaddr`, `__netmask` are the fields; the
public properties read them. -/
structure Interface where
  name : String
  ethaddr : PyVal
  ipaddr : PyVal
  netmask : PyVal
deriving DecidableEq, Repr

/-- The `ethaddr` setter (lines 72-81): an `EthAddr` is stored unchanged; a
string is parsed by the `EthAddr` constructor (raising on a malformed
string); `None` stores the literal default string; anything else is stored
as-is. -/
def Interface.set_ethaddr (i : Interface) (value : PyVal) : Except AddrError Interface :=
  match value with
  | .eth a => .ok { i with ethaddr := .eth a }
  | .str s =>
    match EthAddr.parse s with
    | .ok a => .ok { i with ethaddr := .eth a }
    | .error e => .error e
  | .pynone => .ok { i with ethaddr := .str "00:00:00:00:00:00" }
  | v => .ok { i with ethaddr := v }

/-- The `ipaddr` setter (lines 87-96). -/
def Interface.set_ipaddr (i : Interface) (value : PyVal) : Except AddrError Interface :=
  match value with
  | .ip a => .ok { i with ipaddr := .ip a }
  | .str s =>
    match IPAddr.parse s with
    | .ok a => .ok { i with ipaddr := .ip a }
    | .error e => .error e
  | .pynone => .ok { i with ipaddr := .str "0.0.0.0" }
  | v => .ok { i with ipaddr := v }

/-- The `netmask` setter (lines 102-111). -/
def Interface.set_netmask (i : Interface) (value : PyVal) : Except AddrError Interface :=
  match value with
  | .ip a => .ok { i with netmask := .ip a }
  | .str s =>
    match IPAddr.parse s with
    | .ok a => .ok { i with netmask := .ip a }
    | .error e => .error e
  | .pynone => .ok { i with netmask := .str "255.255.255.255" }
  | v => .ok { i with netmask := v }

/-- `Interface.__init__` (lines 58-62): stores the name verbatim and routes
each address argument through its setter, in order.  The placeholder fields
of `i0` stand for the not-yet-assigned attributes; each is overwritten by its
setter before the object is returned. -/
def Interface.construct (name : String) (eth ip nm : PyVal) : Except AddrError Interface := do
  let i0 : Interface := ⟨name, .pynone, .pynone, .pynone⟩
  let i1 ← i0.set_ethaddr eth
  let i2 ← i1.set_ipaddr ip
  i2.set_netmask nm

/-- `Interface.__str__` (lines 113-114). -/
def Interface.to_string (i : Interface) : String :=
  i.name ++ " mac:" ++ i.ethaddr.render ++ " ip:" ++ i.ipaddr.render ++ "/" ++ i.netmask.render

/-! ## The `LLNetBase` registry (`common.py` lines 145-221) -/

/-- The `devinfo` mapping: Python dicts preserve insertion order, so the
model is an insertion-ordered association list from device name to
`Interface`. -/
abbrev Registry := List (String × Interface)

/-- The per-node state held by `LLNetBase.__init__` (lines 149-151): the
up/down callback slot and the interface registry. -/
structure LLNetBase where
  devupdown_callback : Option Nat
  devinfo : Registry
deriving DecidableEq, Repr

/-- `set_devupdown_callback` (lines 153-162): replaces the stored slot. -/
def LLNetBase.set_devupdown_callback (n : LLNetBase) (cb : Nat) : LLNetBase :=
  { n with devupdown_callback := some cb }

/-- `interfaces` (lines 164-169): the values of `devinfo`, in insertion
order. -/
def LLNetBase.interfaces (n : LLNetBase) : List Interface :=
  n.devinfo.map Prod.snd

/-- `ports` (lines 171-175): alias for `interfaces`. -/
def LLNetBase.ports (n : LLNetBase) : List Interface :=
  n.interfaces

/-- `interface_by_name` (lines 177-183): dict membership test plus lookup;
a missing name raises (`UnknownDeviceError`). -/
def LLNetBase.interface_by_name (n : LLNetBase) (name : String) : Except NodeError Interface :=
  match n.devinfo.find? (fun p => p.1 == name) with
  | some p => .ok p.2
  | none => .error .UnknownDeviceError

/-- `port_by_name` (lines 185-189): alias for `interface_by_name`. -/
def LLNetBase.port_by_name (n : LLNetBase) (name : String) : Except NodeError Interface :=
  n.interface_by_name name

/-- Modelled from the spec: the `IPAddr` constructor applied to an arbitrary
runtime value, as `interface_by_ipaddr` does with `IPAddr(ipaddr)`: another
`IPAddr` is accepted, a string is parsed, and anything else is a format
error (§3: construction from the canonical string form or another instance
of the same type). -/
def IPAddr.coerce : PyVal → Except NodeError IPAddr
  | .ip a => .ok a
  | .str s =>
    match IPAddr.parse s with
    | .ok a => .ok a
    | .error _ => .error .AddressFormatError
  | _ => .error .AddressFormatError

/-- Modelled from the spec: the `EthAddr` constructor applied to an
arbitrary runtime value, as `interface_by_macaddr` does with
`EthAddr(macaddr)`. -/
def EthAddr.coerce : PyVal → Except NodeError EthAddr
  | .eth a => .ok a
  | .str s =>
    match EthAddr.parse s with
    | .ok a => .ok a
    | .error _ => .error .AddressFormatError
  | _ => .error .AddressFormatError

/-- The `for devname,iface in self.devinfo.items()` loop of
`interface_by_ipaddr` (lines 196-199): first interface whose stored `ipaddr`
equals the coerced address, else `UnknownDeviceError`. -/
def lookupByIP : Registry → IPAddr → Except NodeError Interface
  | [], _ => .error .UnknownDeviceError
  | (_, iface) :: rest, a =>
    if iface.ipaddr = .ip a then .ok iface else lookupByIP rest a

/-- `interface_by_ipaddr` (lines 191-199): coerce the argument through the
`IPAddr` constructor, then scan the registry. -/
def LLNetBase.interface_by_ipaddr (n : LLNetBase) (v : PyVal) : Except NodeError Interface :=
  match IPAddr.coerce v with
  | .ok a => lookupByIP n.devinfo a
  | .error e => .error e

/-- `port_by_ipaddr` (lines 201-205): alias for `interface_by_ipaddr`. -/
def LLNetBase.port_by_ipaddr (n : LLNetBase) (v : PyVal) : Except NodeError Interface :=
  n.interface_by_ipaddr v

/-- The scan loop of `interface_by_macaddr` (lines 212-215). -/
def lookupByMac : Registry → EthAddr → Except NodeError Interface
  | [], _ => .error .UnknownDeviceError
  | (_, iface) :: rest, a =>
    if iface.ethaddr = .eth a then .ok iface else lookupByMac rest a

/-- `interface_by_macaddr` (lines 207-215). -/
def LLNetBase.interface_by_macaddr (n : LLNetBase) (v : PyVal) : Except NodeError Interface :=
  match EthAddr.coerce v with
  | .ok a => lookupByMac n.devinfo a
  | .error e => .error e

/-- `port_by_macaddr` (lines 217-221): alias for `interface_by_macaddr`. -/
def LLNetBase.port_by_macaddr (n : LLNetBase) (v : PyVal) : Except NodeError Interface :=
  n.interface_by_macaddr v

/-- Registration of an interface into `devinfo` (the backends perform
`self.devinfo[name] = iface`): Python dict assignment keeps the original
insertion position of an existing key and appends a new key. -/
def registryInsert (r : Registry) (name : String) (i : Interface) : Registry :=
  if r.any (fun p => p.1 == name) then
    r.map (fun p => if p.1 == name then (name, i) else p)
  else r ++ [(name, i)]

/-- Removal of a registry entry (`del self.devinfo[name]`). -/
def registryRemove (r : Registry) (name : String) : Registry :=
  r.filter (fun p => ¬ p.1 == name)

/-- Registration lifted to a node. -/
def LLNetBase.register (n : LLNetBase) (name : String) (i : Interface) : LLNetBase :=
  { n with devinfo := registryInsert n.devinfo name i }

/-! ## The abstract packet-I/O contract (spec §4.2, §4.2 state machine)

`recv_packet`, `send_packet` and `shutdown` are declared `@abstractmethod`
in the sources (lines 223-233) with no concrete body; the state machine
below is modelled from the specification's contract for any compliant
backend. -/

/-- Modelled from the spec: the failures of the abstract I/O operations
(`NoPacketsAvailable`, `DeviceShutdown`, §7). -/
inductive DevError where
  | DeviceShutdown
  | NoPacketsAvailable
deriving DecidableEq, Repr

/-- Modelled from the spec: the per-node backend state — whether `shutdown()`
has run, and the queue of inbound packets (packets are opaque ids). -/
structure DeviceState where
  isShutdown : Bool
  inbox : List Nat
deriving DecidableEq, Repr

/-- Modelled from the spec: `shutdown()` releases backend resources and moves
the node to the terminal `Shutdown` state; idempotent. -/
def DeviceState.shutdown (s : DeviceState) : DeviceState :=
  { s with isShutdown := true }

/-- Modelled from the spec: `receive_packet` fails with `DeviceShutdown`
after shutdown, with `NoPacketsAvailable` when nothing is queued, and
otherwise dequeues the oldest inbound packet. -/
def DeviceState.recv_packet (s : DeviceState) : Except DevError (Nat × DeviceState) :=
  if s.isShutdown then .error .DeviceShutdown
  else
    match s.inbox with
    | [] => .error .NoPacketsAvailable
    | p :: rest => .ok (p, { s with inbox := rest })

/-- Modelled from the spec: `send_packet` fails with `DeviceShutdown` after
shutdown and otherwise transmits (leaving the modelled state unchanged). -/
def DeviceState.send_packet (s : DeviceState) (_pkt : Nat) : Except DevError DeviceState :=
  if s.isShutdown then .error .DeviceShutdown else .ok s

/-- The operations a backend's state can undergo: the three contract calls
plus arrival of an inbound packet. -/
inductive DevOp where
  | shutdownOp
  | recvOp
  | sendOp (pkt : Nat)
  | deliverOp (pkt : Nat)
deriving DecidableEq, Repr

/-- One step of the modelled backend: a failing call leaves the state as it
was; packet arrival enqueues. -/
def DeviceState.step (s : DeviceState) : DevOp → DeviceState
  | .shutdownOp => s.shutdown
  | .recvOp =>
    match s.recv_packet with
    | .ok (_, s2) => s2
    | .error _ => s
  | .sendOp pkt =>
    match s.send_packet pkt with
    | .ok s2 => s2
    | .error _ => s
  | .deliverOp pkt => { s with inbox := s.inbox ++ [pkt] }

/-- A sequence of steps. -/
def DeviceState.steps (s : DeviceState) (ops : List DevOp) : DeviceState :=
  ops.foldl DeviceState.step s

/-! ## The dict-view semantics of `interfaces()`

`interfaces()` returns `self.devinfo.values()`: in Python this is not a
snapshot list but a view object bound to the dict, re-read every time it is
enumerated.  The model makes the binding explicit: nodes live in a store
indexed by node id, a view records only which node's `devinfo` it watches,
and enumeration reads the store current at enumeration time. -/

/-- A `dict_values` view of one node's `devinfo`. -/
structure DictValuesView where
  node : Nat
deriving DecidableEq, Repr

/-- A store of nodes, indexed by node id. -/
def NodeStore := Nat → LLNetBase

/-- The stateful `interfaces()` call on node `nid`: returns the view object
and the (untouched) store. -/
def interfacesCall (σ : NodeStore) (nid : Nat) : DictValuesView × NodeStore :=
  (⟨nid⟩, σ)

/-- Enumerating a view: read the dict it is bound to in the current store. -/
def DictValuesView.enumerate (v : DictValuesView) (σ : NodeStore) : List Interface :=
  ((σ v.node).devinfo).map Prod.snd

/-- Replace one node in the store. -/
def storeUpdate (σ : NodeStore) (nid : Nat) (n : LLNetBase) : NodeStore :=
  fun k => if k = nid then n else σ k

/-! ## Digit- and byte-level lemmas for the address parsers -/

theorem hexVal_hexDigit_fin : ∀ d : Fin 16, hexVal (hexDigit d.val) = some d.val := by decide

theorem hexDigit_ne_colon_fin : ∀ d : Fin 16, hexDigit d.val ≠ ':' := by decide

theorem decVal_decDigit_fin : ∀ d : Fin 10, decVal (decDigit d.val) = some d.val := by decide

theorem decDigit_ne_dot_fin : ∀ d : Fin 10, decDigit d.val ≠ '.' := by decide

theorem hexVal_hexDigit {d : Nat} (h : d < 16) : hexVal (hexDigit d) = some d :=
  hexVal_hexDigit_fin ⟨d, h⟩

theorem hexDigit_ne_colon {d : Nat} (h : d < 16) : hexDigit d ≠ ':' :=
  hexDigit_ne_colon_fin ⟨d, h⟩

theorem decVal_decDigit {d : Nat} (h : d < 10) : decVal (decDigit d) = some d :=
  decVal_decDigit_fin ⟨d, h⟩

theorem decDigit_ne_dot {d : Nat} (h : d < 10) : decDigit d ≠ '.' :=
  decDigit_ne_dot_fin ⟨d, h⟩

theorem parseHexPair_renderHexByte {n : Nat} (h : n < 256) :
    parseHexPair (renderHexByte n) = some n := by
  have h1 : n / 16 < 16 := by omega
  have h2 : n % 16 < 16 := by omega
  simp only [renderHexByte, parseHexPair, hexVal_hexDigit h1, hexVal_hexDigit h2]
  congr 1
  omega

theorem parseDecPart_renderDecByte {n : Nat} (h : n < 256) :
    parseDecPart (renderDecByte n) = some n := by
  by_cases h1 : n < 10
  · simp only [renderDecByte, if_pos h1, parseDecPart, decRun, decVal_decDigit h1]
    norm_num
    omega
  · by_cases h2 : n < 100
    · have d1 : n / 10 < 10 := by omega
      have d0 : n % 10 < 10 := by omega
      simp only [renderDecByte, if_neg h1, if_pos h2, parseDecPart, decRun,
        decVal_decDigit d1, decVal_decDigit d0]
      norm_num
      constructor
      · omega
      · omega
    · have d2 : n / 100 < 10 := by omega
      have d1 : n / 10 % 10 < 10 := by omega
      have d0 : n % 10 < 10 := by omega
      simp only [renderDecByte, if_neg h1, if_neg h2, parseDecPart, decRun,
        decVal_decDigit d2, decVal_decDigit d1, decVal_decDigit d0]
      norm_num
      constructor
      · omega
      · omega

/-! ## Split/join lemmas -/

theorem splitOnCh_no_sep {sep : Char} :
    ∀ g : List Char, (∀ c ∈ g, c ≠ sep) → splitOnCh sep g = [g] := by
  intro g
  induction g with
  | nil => intro _; rfl
  | cons c rest ih =>
    intro h
    have hc : c ≠ sep := h c (List.mem_cons_self c rest)
    have hrest : ∀ x ∈ rest, x ≠ sep := fun x hx => h x (List.mem_cons_of_mem c hx)
    simp only [splitOnCh, if_neg hc, ih hrest]

theorem splitOnCh_append_sep {sep : Char} :
    ∀ (g t : List Char), (∀ c ∈ g, c ≠ sep) →
      splitOnCh sep (g ++ sep :: t) = g :: splitOnCh sep t := by
  intro g
  induction g with
  | nil => intro t _; simp [splitOnCh]
  | cons c rest ih =>
    intro t h
    have hc : c ≠ sep := h c (List.mem_cons_self c rest)
    have hrest : ∀ x ∈ rest, x ≠ sep := fun x hx => h x (List.mem_cons_of_mem c hx)
    simp only [List.cons_append, splitOnCh, if_neg hc, List.append_eq, ih t hrest]

theorem splitOnCh_joinSep {sep : Char} :
    ∀ parts : List (List Char), parts ≠ [] →
      (∀ g ∈ parts, ∀ c ∈ g, c ≠ sep) →
      splitOnCh sep (joinSep sep parts) = parts := by
  intro parts
  induction parts with
  | nil => intro h; exact absurd rfl h
  | cons g gs ih =>
    intro _ h
    cases gs with
    | nil =>
      have hg : ∀ c ∈ g, c ≠ sep := h g (List.mem_cons_self g [])
      simp only [joinSep, splitOnCh_no_sep g hg]
    | cons g2 gs2 =>
      have hg : ∀ c ∈ g, c ≠ sep := h g (List.mem_cons_self g (g2 :: gs2))
      have hrest : ∀ x ∈ g2 :: gs2, ∀ c ∈ x, c ≠ sep :=
        fun x hx => h x (List.mem_cons_of_mem g hx)
      simp only [joinSep, splitOnCh_append_sep g _ hg,
        ih (List.cons_ne_nil g2 gs2) hrest]

/-! ## Bounds extracted from successful parses -/

theorem hexVal_lt {c : Char} {v : Nat} (h : hexVal c = some v) : v < 16 := by
  unfold hexVal at h
  split at h
  · simp only [Option.some.injEq] at h
    omega
  · split at h
    · simp only [Option.some.injEq] at h
      omega
    · split at h
      · simp only [Option.some.injEq] at h
        omega
      · exact absurd h (by simp)

theorem parseHexPair_lt {cs : List Char} {v : Nat} (h : parseHexPair cs = some v) :
    v < 256 := by
  unfold parseHexPair at h
  split at h
  · rename_i a b
    cases hx : hexVal a with
    | none => simp [hx] at h
    | some x =>
      cases hy : hexVal b with
      | none => simp [hx, hy] at h
      | some y =>
        simp only [hx, hy, Option.some.injEq] at h
        have hx16 := hexVal_lt hx
        have hy16 := hexVal_lt hy
        omega
  · exact absurd h (by simp)

theorem parseDecPart_le {cs : List Char} {v : Nat} (h : parseDecPart cs = some v) :
    v ≤ 255 := by
  unfold parseDecPart at h
  split at h
  · exact absurd h (by simp)
  · split at h
    · split at h
      · rename_i hle
        simp only [Option.some.injEq] at h
        omega
      · exact absurd h (by simp)
    · exact absurd h (by simp)

theorem parseAll_bounds (bound : Nat) {f : List Char → Option Nat}
    (hf : ∀ cs v, f cs = some v → v < bound) :
    ∀ {ps : List (List Char)} {vs : List Nat},
      parseAll f ps = some vs → vs.length = ps.length ∧ ∀ v ∈ vs, v < bound := by
  intro ps
  induction ps with
  | nil =>
    intro vs h
    simp only [parseAll, Option.some.injEq] at h
    subst h
    simp
  | cons p ps2 ih =>
    intro vs h
    unfold parseAll at h
    cases hp : f p with
    | none => simp [hp] at h
    | some v =>
      cases hps : parseAll f ps2 with
      | none => simp [hp, hps] at h
      | some vs2 =>
        simp only [hp, hps, Option.some.injEq] at h
        subst h
        have ⟨hl, hb⟩ := ih hps
        refine ⟨by simp [hl], ?_⟩
        intro x hx
        rcases List.mem_cons.mp hx with h1 | h2
        · subst h1
          exact hf p x hp
        · exact hb x h2

theorem parseAll_map_renderHex {bytes : List Nat} (h : ∀ b ∈ bytes, b < 256) :
    parseAll parseHexPair (bytes.map renderHexByte) = some bytes := by
  induction bytes with
  | nil => rfl
  | cons b rest ih =>
    have hb : b < 256 := h b (List.mem_cons_self b rest)
    have hrest : ∀ x ∈ rest, x < 256 := fun x hx => h x (List.mem_cons_of_mem b hx)
    simp only [List.map_cons, parseAll, parseHexPair_renderHexByte hb, ih hrest]

theorem parseAll_map_renderDec {bytes : List Nat} (h : ∀ b ∈ bytes, b < 256) :
    parseAll parseDecPart (bytes.map renderDecByte) = some bytes := by
  induction bytes with
  | nil => rfl
  | cons b rest ih =>
    have hb : b < 256 := h b (List.mem_cons_self b rest)
    have hrest : ∀ x ∈ rest, x < 256 := fun x hx => h x (List.mem_cons_of_mem b hx)
    simp only [List.map_cons, parseAll, parseDecPart_renderDecByte hb, ih hrest]

theorem renderHexByte_no_colon {n : Nat} (h : n < 256) :
    ∀ c ∈ renderHexByte n, c ≠ ':' := by
  intro c hc
  unfold renderHexByte at hc
  rcases List.mem_cons.mp hc with h1 | h2
  · subst h1
    exact hexDigit_ne_colon (by omega)
  · rcases List.mem_singleton.mp h2 with h3
    subst h3
    exact hexDigit_ne_colon (by omega)

theorem renderDecByte_no_dot {n : Nat} (h : n < 256) :
    ∀ c ∈ renderDecByte n, c ≠ '.' := by
  intro c hc
  unfold renderDecByte at hc
  by_cases h1 : n < 10
  · rw [if_pos h1] at hc
    rcases List.mem_singleton.mp hc with h3
    subst h3
    exact decDigit_ne_dot h1
  · by_cases h2 : n < 100
    · rw [if_neg h1, if_pos h2] at hc
      rcases List.mem_cons.mp hc with h3 | h4
      · subst h3
        exact decDigit_ne_dot (by omega)
      · rcases List.mem_singleton.mp h4 with h5
        subst h5
        exact decDigit_ne_dot (by omega)
    · rw [if_neg h1, if_neg h2] at hc
      rcases List.mem_cons.mp hc with h3 | h4
      · subst h3
        exact decDigit_ne_dot (by omega)
      · rcases List.mem_cons.mp h4 with h5 | h6
        · subst h5
          exact decDigit_ne_dot (by omega)
        · rcases List.mem_singleton.mp h6 with h7
          subst h7
          exact decDigit_ne_dot (by omega)

/-! ## Parse/render roundtrip at the address level -/

theorem ipParse_bytes {s : String} {a : IPAddr} (h : IPAddr.parse s = .ok a) :
    a.bytes.length = 4 ∧ ∀ b ∈ a.bytes, b < 256 := by
  simp only [IPAddr.parse] at h
  split at h
  · rename_i hlen
    cases hp : parseAll parseDecPart (splitOnCh '.' s.data) with
    | none => simp [hp] at h
    | some bs =>
      simp only [hp, Except.ok.injEq] at h
      subst h
      have hb := parseAll_bounds 256
        (fun cs v hv => by have := parseDecPart_le hv; omega) hp
      exact ⟨by rw [hb.1, hlen], hb.2⟩
  · exact absurd h (by simp)

theorem ethParse_bytes {s : String} {a : EthAddr} (h : EthAddr.parse s = .ok a) :
    a.bytes.length = 6 ∧ ∀ b ∈ a.bytes, b < 256 := by
  simp only [EthAddr.parse] at h
  split at h
  · rename_i hlen
    cases hp : parseAll parseHexPair (splitOnCh ':' s.data) with
    | none => simp [hp] at h
    | some bs =>
      simp only [hp, Except.ok.injEq] at h
      subst h
      have hb := parseAll_bounds 256 (fun cs v hv => parseHexPair_lt hv) hp
      exact ⟨by rw [hb.1, hlen], hb.2⟩
  · exact absurd h (by simp)

theorem ipParse_to_string {a : IPAddr}
    (hlen : a.bytes.length = 4) (hb : ∀ b ∈ a.bytes, b < 256) :
    IPAddr.parse (IPAddr.to_string a) = .ok a := by
  have hne : a.bytes.map renderDecByte ≠ [] := by
    intro hcon
    have := congrArg List.length hcon
    simp [hlen] at this
  have hsep : ∀ g ∈ a.bytes.map renderDecByte, ∀ c ∈ g, c ≠ '.' := by
    intro g hg
    rcases List.mem_map.mp hg with ⟨b, hbmem, rfl⟩
    exact renderDecByte_no_dot (hb b hbmem)
  simp only [IPAddr.parse, IPAddr.to_string, splitOnCh_joinSep _ hne hsep,
    List.length_map, hlen, if_true, parseAll_map_renderDec hb]

theorem ethParse_to_string {a : EthAddr}
    (hlen : a.bytes.length = 6) (hb : ∀ b ∈ a.bytes, b < 256) :
    EthAddr.parse (EthAddr.to_string a) = .ok a := by
  have hne : a.bytes.map renderHexByte ≠ [] := by
    intro hcon
    have := congrArg List.length hcon
    simp [hlen] at this
  have hsep : ∀ g ∈ a.bytes.map renderHexByte, ∀ c ∈ g, c ≠ ':' := by
    intro g hg
    rcases List.mem_map.mp hg with ⟨b, hbmem, rfl⟩
    exact renderHexByte_no_colon (hb b hbmem)
  simp only [EthAddr.parse, EthAddr.to_string, splitOnCh_joinSep _ hne hsep,
    List.length_map, hlen, if_true, parseAll_map_renderHex hb]

/-- The canonical form of an IP string: the canonical rendering of its parse
(defined only for syntactically valid strings). -/
def canonicalIP (s : String) : Option String :=
  match IPAddr.parse s with
  | .ok a => some (IPAddr.to_string a)
  | .error _ => none

/-- The canonical form of a MAC string. -/
def canonicalMac (s : String) : Option String :=
  match EthAddr.parse s with
  | .ok a => some (EthAddr.to_string a)
  | .error _ => none

/-- C8: for every syntactically valid MAC or IP address string, rendering the
parse yields the canonical form of the string, and parsing that rendered
canonical form again yields a value equal to the first parse: the
parse/render round-trip is stable. -/
theorem c8_parse_render_roundtrip (s t : String) (a : IPAddr) (b : EthAddr) :
    (IPAddr.parse s = .ok a →
      canonicalIP s = some (IPAddr.to_string a) ∧
      IPAddr.parse (IPAddr.to_string a) = .ok a) ∧
    (EthAddr.parse t = .ok b →
      canonicalMac t = some (EthAddr.to_string b) ∧
      EthAddr.parse (EthAddr.to_string b) = .ok b) := by
  constructor
  · intro h
    have ⟨hlen, hb⟩ := ipParse_bytes h
    exact ⟨by simp [canonicalIP, h], ipParse_to_string hlen hb⟩
  · intro h
    have ⟨hlen, hb⟩ := ethParse_bytes h
    exact ⟨by simp [canonicalMac, h], ethParse_to_string hlen hb⟩

/-- Round-trip stability witnessed at `10.0.0.1` and `aa:bb:cc:dd:ee:ff`. -/
theorem c8_parse_render_roundtrip_witness :
    IPAddr.parse (IPAddr.to_string ⟨[10, 0, 0, 1]⟩) = .ok ⟨[10, 0, 0, 1]⟩ ∧
    EthAddr.parse (EthAddr.to_string ⟨[170, 187, 204, 221, 238, 255]⟩) =
      .ok ⟨[170, 187, 204, 221, 238, 255]⟩ :=
  ⟨((c8_parse_render_roundtrip "10.0.0.1" "aa:bb:cc:dd:ee:ff"
      ⟨[10, 0, 0, 1]⟩ ⟨[170, 187, 204, 221, 238, 255]⟩).1 rfl).2,
   ((c8_parse_render_roundtrip "10.0.0.1" "aa:bb:cc:dd:ee:ff"
      ⟨[10, 0, 0, 1]⟩ ⟨[170, 187, 204, 221, 238, 255]⟩).2 rfl).2⟩

/-! ## Field-preservation lemmas for the setters -/

theorem set_ethaddr_fields {i : Interface} {v : PyVal} {i2 : Interface}
    (h : i.set_ethaddr v = .ok i2) :
    i2.name = i.name ∧ i2.ipaddr = i.ipaddr ∧ i2.netmask = i.netmask := by
  cases v with
  | eth a =>
    simp only [Interface.set_ethaddr, Except.ok.injEq] at h
    subst h
    exact ⟨rfl, rfl, rfl⟩
  | ip a =>
    simp only [Interface.set_ethaddr, Except.ok.injEq] at h
    subst h
    exact ⟨rfl, rfl, rfl⟩
  | str s =>
    cases hp : EthAddr.parse s with
    | ok a =>
      simp only [Interface.set_ethaddr, hp, Except.ok.injEq] at h
      subst h
      exact ⟨rfl, rfl, rfl⟩
    | error e => simp [Interface.set_ethaddr, hp] at h
  | pynone =>
    simp only [Interface.set_ethaddr, Except.ok.injEq] at h
    subst h
    exact ⟨rfl, rfl, rfl⟩
  | other n =>
    simp only [Interface.set_ethaddr, Except.ok.injEq] at h
    subst h
    exact ⟨rfl, rfl, rfl⟩

theorem set_ipaddr_fields {i : Interface} {v : PyVal} {i2 : Interface}
    (h : i.set_ipaddr v = .ok i2) :
    i2.name = i.name ∧ i2.ethaddr = i.ethaddr ∧ i2.netmask = i.netmask := by
  cases v with
  | eth a =>
    simp only [Interface.set_ipaddr, Except.ok.injEq] at h
    subst h
    exact ⟨rfl, rfl, rfl⟩
  | ip a =>
    simp only [Interface.set_ipaddr, Except.ok.injEq] at h
    subst h
    exact ⟨rfl, rfl, rfl⟩
  | str s =>
    cases hp : IPAddr.parse s with
    | ok a =>
      simp only [Interface.set_ipaddr, hp, Except.ok.injEq] at h
      subst h
      exact ⟨rfl, rfl, rfl⟩
    | error e => simp [Interface.set_ipaddr, hp] at h
  | pynone =>
    simp only [Interface.set_ipaddr, Except.ok.injEq] at h
    subst h
    exact ⟨rfl, rfl, rfl⟩
  | other n =>
    simp only [Interface.set_ipaddr, Except.ok.injEq] at h
    subst h
    exact ⟨rfl, rfl, rfl⟩

theorem set_netmask_fields {i : Interface} {v : PyVal} {i2 : Interface}
    (h : i.set_netmask v = .ok i2) :
    i2.name = i.name ∧ i2.ethaddr = i.ethaddr ∧ i2.ipaddr = i.ipaddr := by
  cases v with
  | eth a =>
    simp only [Interface.set_netmask, Except.ok.injEq] at h
    subst h
    exact ⟨rfl, rfl, rfl⟩
  | ip a =>
    simp only [Interface.set_netmask, Except.ok.injEq] at h
    subst h
    exact ⟨rfl, rfl, rfl⟩
  | str s =>
    cases hp : IPAddr.parse s with
    | ok a =>
      simp only [Interface.set_netmask, hp, Except.ok.injEq] at h
      subst h
      exact ⟨rfl, rfl, rfl⟩
    | error e => simp [Interface.set_netmask, hp] at h
  | pynone =>
    simp only [Interface.set_netmask, Except.ok.injEq] at h
    subst h
    exact ⟨rfl, rfl, rfl⟩
  | other n =>
    simp only [Interface.set_netmask, Except.ok.injEq] at h
    subst h
    exact ⟨rfl, rfl, rfl⟩

/-- Decomposition of a successful `Interface.construct` into its three setter
stages. -/
theorem construct_ok {name : String} {e ip nm : PyVal} {i : Interface}
    (h : Interface.construct name e ip nm = .ok i) :
    ∃ i1 i2, (Interface.mk name .pynone .pynone .pynone).set_ethaddr e = .ok i1 ∧
      i1.set_ipaddr ip = .ok i2 ∧ i2.set_netmask nm = .ok i := by
  unfold Interface.construct at h
  cases h1 : (Interface.mk name .pynone .pynone .pynone).set_ethaddr e with
  | error e1 => simp [h1, Bind.bind, Except.bind] at h
  | ok i1 =>
    cases h2 : i1.set_ipaddr ip with
    | error e2 => simp [h1, h2, Bind.bind, Except.bind] at h
    | ok i2 =>
      simp only [h1, h2, Bind.bind, Except.bind] at h
      exact ⟨i1, i2, rfl, h2, h⟩

/-- C1: each of the three address setters follows the identical four-way
coercion rule: an already-typed address is stored unchanged; a string is
parsed through the typed-address constructor, failing with
`AddressFormatError` on a malformed string; `None` stores the documented
default; any other input is stored as-is without error. -/
theorem c1_address_setter_rule (i : Interface) :
    ((∀ a, i.set_ethaddr (.eth a) = .ok { i with ethaddr := .eth a }) ∧
     (∀ s a, EthAddr.parse s = .ok a →
        i.set_ethaddr (.str s) = .ok { i with ethaddr := .eth a }) ∧
     (∀ s, EthAddr.parse s = .error .AddressFormatError →
        i.set_ethaddr (.str s) = .error .AddressFormatError) ∧
     (i.set_ethaddr .pynone = .ok { i with ethaddr := .str "00:00:00:00:00:00" }) ∧
     (∀ v, (∀ a, v ≠ .eth a) → (∀ s, v ≠ .str s) → v ≠ .pynone →
        i.set_ethaddr v = .ok { i with ethaddr := v })) ∧
    ((∀ a, i.set_ipaddr (.ip a) = .ok { i with ipaddr := .ip a }) ∧
     (∀ s a, IPAddr.parse s = .ok a →
        i.set_ipaddr (.str s) = .ok { i with ipaddr := .ip a }) ∧
     (∀ s, IPAddr.parse s = .error .AddressFormatError →
        i.set_ipaddr (.str s) = .error .AddressFormatError) ∧
     (i.set_ipaddr .pynone = .ok { i with ipaddr := .str "0.0.0.0" }) ∧
     (∀ v, (∀ a, v ≠ .ip a) → (∀ s, v ≠ .str s) → v ≠ .pynone →
        i.set_ipaddr v = .ok { i with ipaddr := v })) ∧
    ((∀ a, i.set_netmask (.ip a) = .ok { i with netmask := .ip a }) ∧
     (∀ s a, IPAddr.parse s = .ok a →
        i.set_netmask (.str s) = .ok { i with netmask := .ip a }) ∧
     (∀ s, IPAddr.parse s = .error .AddressFormatError →
        i.set_netmask (.str s) = .error .AddressFormatError) ∧
     (i.set_netmask .pynone = .ok { i with netmask := .str "255.255.255.255" }) ∧
     (∀ v, (∀ a, v ≠ .ip a) → (∀ s, v ≠ .str s) → v ≠ .pynone →
        i.set_netmask v = .ok { i with netmask := v })) := by
  refine ⟨⟨fun a => rfl, ?_, ?_, rfl, ?_⟩, ⟨fun a => rfl, ?_, ?_, rfl, ?_⟩,
    ⟨fun a => rfl, ?_, ?_, rfl, ?_⟩⟩
  · intro s a h
    simp [Interface.set_ethaddr, h]
  · intro s h
    simp [Interface.set_ethaddr, h]
  · intro v h1 h2 h3
    cases v with
    | eth a => exact absurd rfl (h1 a)
    | ip a => rfl
    | str s => exact absurd rfl (h2 s)
    | pynone => exact absurd rfl h3
    | other n => rfl
  · intro s a h
    simp [Interface.set_ipaddr, h]
  · intro s h
    simp [Interface.set_ipaddr, h]
  · intro v h1 h2 h3
    cases v with
    | eth a => rfl
    | ip a => exact absurd rfl (h1 a)
    | str s => exact absurd rfl (h2 s)
    | pynone => exact absurd rfl h3
    | other n => rfl
  · intro s a h
    simp [Interface.set_netmask, h]
  · intro s h
    simp [Interface.set_netmask, h]
  · intro v h1 h2 h3
    cases v with
    | eth a => rfl
    | ip a => exact absurd rfl (h1 a)
    | str s => exact absurd rfl (h2 s)
    | pynone => exact absurd rfl h3
    | other n => rfl

/-- The setter rule witnessed on a concrete interface: a valid MAC string is
parsed and stored typed, a malformed IP string raises, and a typed `EthAddr`
assigned to `netmask` is stored as-is. -/
theorem c1_address_setter_rule_witness :
    (Interface.mk "eth0" .pynone .pynone .pynone).set_ethaddr
        (.str "aa:bb:cc:dd:ee:ff") =
      .ok (Interface.mk "eth0" (.eth ⟨[170, 187, 204, 221, 238, 255]⟩) .pynone .pynone) ∧
    (Interface.mk "eth0" .pynone .pynone .pynone).set_ipaddr (.str "10.0.0.999") =
      .error .AddressFormatError ∧
    (Interface.mk "eth0" .pynone .pynone .pynone).set_netmask
        (.eth ⟨[0, 0, 0, 0, 0, 0]⟩) =
      .ok (Interface.mk "eth0" .pynone .pynone (.eth ⟨[0, 0, 0, 0, 0, 0]⟩)) :=
  ⟨(c1_address_setter_rule _).1.2.1 "aa:bb:cc:dd:ee:ff"
      ⟨[170, 187, 204, 221, 238, 255]⟩ rfl,
   (c1_address_setter_rule _).2.1.2.2.1 "10.0.0.999" rfl,
   (c1_address_setter_rule
        (Interface.mk "eth0" .pynone .pynone .pynone)).2.2.2.2.2.2
      (.eth ⟨[0, 0, 0, 0, 0, 0]⟩)
      (fun a h => by cases h) (fun s h => by cases h) (fun h => by cases h)⟩

/-- C2: constructing an `Interface` with `ethaddr=None` stores a value whose
string rendering is `00:00:00:00:00:00`; likewise `ipaddr=None` renders as
`0.0.0.0` and `netmask=None` as `255.255.255.255`. -/
theorem c2_default_rendering (name : String) (e ip nm : PyVal) (i : Interface) :
    (Interface.construct name .pynone ip nm = .ok i →
      i.ethaddr.render = "00:00:00:00:00:00") ∧
    (Interface.construct name e .pynone nm = .ok i →
      i.ipaddr.render = "0.0.0.0") ∧
    (Interface.construct name e ip .pynone = .ok i →
      i.netmask.render = "255.255.255.255") := by
  refine ⟨?_, ?_, ?_⟩
  · intro h
    rcases construct_ok h with ⟨i1, i2, h1, h2, h3⟩
    have e1 : i1.ethaddr = .str "00:00:00:00:00:00" := by
      simp only [Interface.set_ethaddr, Except.ok.injEq] at h1
      rw [← h1]
    have e2 : i2.ethaddr = i1.ethaddr := (set_ipaddr_fields h2).2.1
    have e3 : i.ethaddr = i2.ethaddr := (set_netmask_fields h3).2.1
    rw [e3, e2, e1]
    rfl
  · intro h
    rcases construct_ok h with ⟨i1, i2, h1, h2, h3⟩
    have e2 : i2.ipaddr = .str "0.0.0.0" := by
      simp only [Interface.set_ipaddr, Except.ok.injEq] at h2
      rw [← h2]
    have e3 : i.ipaddr = i2.ipaddr := (set_netmask_fields h3).2.2
    rw [e3, e2]
    rfl
  · intro h
    rcases construct_ok h with ⟨i1, i2, h1, h2, h3⟩
    have e3 : i.netmask = .str "255.255.255.255" := by
      simp only [Interface.set_netmask, Except.ok.injEq] at h3
      rw [← h3]
    rw [e3]
    rfl

/-- The defaults witnessed: constructing `eth0` with all three address
arguments absent yields the three documented renderings. -/
theorem c2_default_rendering_witness :
    (Interface.construct "eth0" .pynone .pynone .pynone =
      .ok (Interface.mk "eth0" (.str "00:00:00:00:00:00") (.str "0.0.0.0")
        (.str "255.255.255.255"))) ∧
    (Interface.mk "eth0" (.str "00:00:00:00:00:00") (.str "0.0.0.0")
        (.str "255.255.255.255")).ethaddr.render = "00:00:00:00:00:00" ∧
    (Interface.mk "eth0" (.str "00:00:00:00:00:00") (.str "0.0.0.0")
        (.str "255.255.255.255")).ipaddr.render = "0.0.0.0" ∧
    (Interface.mk "eth0" (.str "00:00:00:00:00:00") (.str "0.0.0.0")
        (.str "255.255.255.255")).netmask.render = "255.255.255.255" :=
  ⟨rfl,
   (c2_default_rendering "eth0" .pynone .pynone .pynone _).1 rfl,
   (c2_default_rendering "eth0" .pynone .pynone .pynone _).2.1 rfl,
   (c2_default_rendering "eth0" .pynone .pynone .pynone _).2.2 rfl⟩

/-- C6: the name is stored verbatim at construction and no `Interface`
operation changes it: each address setter leaves it untouched, and the only
way a name comes into existence is the constructor argument. -/
theorem c6_name_readonly (nm : String) (e ip msk : PyVal) (j : Interface)
    (i : Interface) (v : PyVal) (i2 : Interface) :
    (Interface.construct nm e ip msk = .ok j → j.name = nm) ∧
    (i.set_ethaddr v = .ok i2 → i2.name = i.name) ∧
    (i.set_ipaddr v = .ok i2 → i2.name = i.name) ∧
    (i.set_netmask v = .ok i2 → i2.name = i.name) := by
  refine ⟨?_, fun h => (set_ethaddr_fields h).1, fun h => (set_ipaddr_fields h).1,
    fun h => (set_netmask_fields h).1⟩
  intro h
  rcases construct_ok h with ⟨i1, i2', h1, h2, h3⟩
  have n1 : i1.name = nm := (set_ethaddr_fields h1).1
  have n2 : i2'.name = i1.name := (set_ipaddr_fields h2).1
  have n3 : j.name = i2'.name := (set_netmask_fields h3).1
  rw [n3, n2, n1]

/-- Name immutability witnessed: a constructed interface keeps its name, and
reassigning its `ipaddr` leaves the name unchanged. -/
theorem c6_name_readonly_witness :
    ((Interface.mk "eth0" .pynone (.str "10.0.0.1") .pynone).set_ipaddr
        (.str "10.0.0.2") =
      .ok (Interface.mk "eth0" .pynone (.ip ⟨[10, 0, 0, 2]⟩) .pynone)) ∧
    (Interface.mk "eth0" .pynone (.ip ⟨[10, 0, 0, 2]⟩) .pynone).name =
      (Interface.mk "eth0" .pynone (.str "10.0.0.1") .pynone).name :=
  ⟨rfl,
   (c6_name_readonly "eth0" .pynone .pynone .pynone
      (Interface.mk "eth0" .pynone (.str "10.0.0.1") .pynone)
      (Interface.mk "eth0" .pynone (.str "10.0.0.1") .pynone)
      (.str "10.0.0.2")
      (Interface.mk "eth0" .pynone (.ip ⟨[10, 0, 0, 2]⟩) .pynone)).2.2.1 rfl⟩

/-- The spec's canonical interface rendering template with the four
placeholders filled in. -/
def specCanonicalRender (name mac ip msk : String) : String :=
  name ++ " mac:" ++ mac ++ " ip:" ++ ip ++ "/" ++ msk

/-- C7: `Interface.__str__` produces exactly the canonical template
`<name> mac:<ethaddr> ip:<ipaddr>/<netmask>` where each placeholder is the
string form of the corresponding field. -/
theorem c7_to_string_format (i : Interface) :
    i.to_string = specCanonicalRender i.name i.ethaddr.render i.ipaddr.render
      i.netmask.render := rfl

/-! ## Registry lookup lemmas -/

theorem find?_registryInsert {r : Registry} {name : String} {i : Interface} :
    (registryInsert r name i).find? (fun p => p.1 == name) = some (name, i) := by
  unfold registryInsert
  by_cases h : r.any (fun p => p.1 == name)
  · rw [if_pos h]
    induction r with
    | nil => simp at h
    | cons p rest ih =>
      by_cases hp : p.1 == name
      · simp only [List.map_cons, if_pos hp]
        exact List.find?_cons_of_pos _ (by simp)
      · simp only [List.map_cons, if_neg hp]
        rw [List.find?_cons_of_neg _ (by simpa using hp)]
        apply ih
        simp only [List.any_cons, Bool.or_eq_true] at h
        rcases h with h1 | h2
        · exact absurd h1 hp
        · simpa using h2
  · rw [if_neg h]
    rw [List.find?_append]
    have hnone : r.find? (fun p => p.1 == name) = none := by
      rw [List.find?_eq_none]
      intro x hx
      rw [Bool.not_eq_true]
      rcases Bool.eq_false_or_eq_true (x.1 == name) with ht | hf
      · exact absurd (List.any_eq_true.mpr ⟨x, hx, ht⟩) h
      · exact hf
    rw [hnone]
    simp [List.find?]

/-- The `interface_by_ipaddr` scan loop is exactly first-match over the
interface enumeration. -/
theorem lookupByIP_eq_find? :
    ∀ (r : Registry) (a : IPAddr),
      lookupByIP r a =
        match (r.map Prod.snd).find? (fun i => i.ipaddr == .ip a) with
        | some i => .ok i
        | none => .error .UnknownDeviceError := by
  intro r a
  induction r with
  | nil => rfl
  | cons p rest ih =>
    rcases p with ⟨nm, iface⟩
    by_cases h : iface.ipaddr = .ip a
    · simp only [lookupByIP, if_pos h, List.map_cons]
      rw [List.find?_cons_of_pos _ (by simpa using h)]
    · simp only [lookupByIP, if_neg h, List.map_cons]
      rw [List.find?_cons_of_neg _ (by simpa using h)]
      exact ih

/-- The `interface_by_macaddr` scan loop is exactly first-match over the
interface enumeration. -/
theorem lookupByMac_eq_find? :
    ∀ (r : Registry) (a : EthAddr),
      lookupByMac r a =
        match (r.map Prod.snd).find? (fun i => i.ethaddr == .eth a) with
        | some i => .ok i
        | none => .error .UnknownDeviceError := by
  intro r a
  induction r with
  | nil => rfl
  | cons p rest ih =>
    rcases p with ⟨nm, iface⟩
    by_cases h : iface.ethaddr = .eth a
    · simp only [lookupByMac, if_pos h, List.map_cons]
      rw [List.find?_cons_of_pos _ (by simpa using h)]
    · simp only [lookupByMac, if_neg h, List.map_cons]
      rw [List.find?_cons_of_neg _ (by simpa using h)]
      exact ih

/-- C5: `interface_by_name` is a left inverse of registration: after an
interface is registered under name `nm`, looking up `nm` returns exactly that
interface, and looking up any name not present in the registry fails with
`UnknownDeviceError`. -/
theorem c5_name_lookup (n : LLNetBase) (nm m : String) (iface : Interface) :
    ((n.register nm iface).interface_by_name nm = .ok iface) ∧
    ((∀ p ∈ n.devinfo, p.1 ≠ m) →
      n.interface_by_name m = .error .UnknownDeviceError) := by
  constructor
  · unfold LLNetBase.register LLNetBase.interface_by_name
    simp only [find?_registryInsert]
  · intro h
    unfold LLNetBase.interface_by_name
    have hnone : n.devinfo.find? (fun p => p.1 == m) = none := by
      rw [List.find?_eq_none]
      intro x hx
      simpa using h x hx
    rw [hnone]

/-- Lookup-after-registration witnessed on a two-interface node: `eth1` is
found after registration, and `ghost` fails. -/
theorem c5_name_lookup_witness :
    ((LLNetBase.mk none [("eth0", Interface.mk "eth0" .pynone .pynone .pynone)]).register
        "eth1" (Interface.mk "eth1" .pynone .pynone .pynone)).interface_by_name "eth1" =
      .ok (Interface.mk "eth1" .pynone .pynone .pynone) ∧
    (LLNetBase.mk none [("eth0", Interface.mk "eth0" .pynone .pynone .pynone)]).interface_by_name
        "ghost" = .error .UnknownDeviceError :=
  ⟨(c5_name_lookup (LLNetBase.mk none [("eth0", Interface.mk "eth0" .pynone .pynone .pynone)])
      "eth1" "ghost" (Interface.mk "eth1" .pynone .pynone .pynone)).1,
   (c5_name_lookup (LLNetBase.mk none [("eth0", Interface.mk "eth0" .pynone .pynone .pynone)])
      "eth1" "ghost" (Interface.mk "eth1" .pynone .pynone .pynone)).2
     (by intro p hp; simp at hp; subst hp; decide)⟩

/-- C3: `interface_by_ipaddr` and `interface_by_macaddr` first coerce their
input through the typed-address constructor — a syntactically invalid string
fails with `AddressFormatError` regardless of the registry, before any
lookup — then return the first interface in registry enumeration order whose
stored address equals the coerced address, failing with
`UnknownDeviceError` when the registry is empty or nothing matches. -/
theorem c3_lookup_by_address (n : LLNetBase) (s t : String) (v w : PyVal)
    (a : IPAddr) (b : EthAddr) :
    (IPAddr.parse s = .error .AddressFormatError →
      n.interface_by_ipaddr (.str s) = .error .AddressFormatError) ∧
    (IPAddr.coerce v = .ok a →
      n.interface_by_ipaddr v =
        match n.interfaces.find? (fun i => i.ipaddr == .ip a) with
        | some i => .ok i
        | none => .error .UnknownDeviceError) ∧
    (IPAddr.coerce v = .ok a → (∀ i ∈ n.interfaces, i.ipaddr ≠ .ip a) →
      n.interface_by_ipaddr v = .error .UnknownDeviceError) ∧
    (EthAddr.parse t = .error .AddressFormatError →
      n.interface_by_macaddr (.str t) = .error .AddressFormatError) ∧
    (EthAddr.coerce w = .ok b →
      n.interface_by_macaddr w =
        match n.interfaces.find? (fun i => i.ethaddr == .eth b) with
        | some i => .ok i
        | none => .error .UnknownDeviceError) ∧
    (EthAddr.coerce w = .ok b → (∀ i ∈ n.interfaces, i.ethaddr ≠ .eth b) →
      n.interface_by_macaddr w = .error .UnknownDeviceError) := by
  refine ⟨?_, ?_, ?_, ?_, ?_, ?_⟩
  · intro h
    simp [LLNetBase.interface_by_ipaddr, IPAddr.coerce, h]
  · intro h
    simp only [LLNetBase.interface_by_ipaddr, h]
    exact lookupByIP_eq_find? n.devinfo a
  · intro h hmatch
    simp only [LLNetBase.interface_by_ipaddr, h, lookupByIP_eq_find? n.devinfo a]
    have hnone : n.interfaces.find? (fun i => i.ipaddr == .ip a) = none := by
      rw [List.find?_eq_none]
      intro x hx
      simpa using hmatch x hx
    unfold LLNetBase.interfaces at hnone
    rw [hnone]
  · intro h
    simp [LLNetBase.interface_by_macaddr, EthAddr.coerce, h]
  · intro h
    simp only [LLNetBase.interface_by_macaddr, h]
    exact lookupByMac_eq_find? n.devinfo b
  · intro h hmatch
    simp only [LLNetBase.interface_by_macaddr, h, lookupByMac_eq_find? n.devinfo b]
    have hnone : n.interfaces.find? (fun i => i.ethaddr == .eth b) = none := by
      rw [List.find?_eq_none]
      intro x hx
      simpa using hmatch x hx
    unfold LLNetBase.interfaces at hnone
    rw [hnone]

/-- Address lookup witnessed on a two-interface node: a malformed IP string
fails with `AddressFormatError`, the string `10.0.0.2` finds the second
interface, and an unmatched MAC fails with `UnknownDeviceError` on an empty
registry. -/
theorem c3_lookup_by_address_witness :
    (LLNetBase.mk none
        [("eth0", Interface.mk "eth0" .pynone (.ip ⟨[10, 0, 0, 1]⟩) .pynone),
         ("eth1", Interface.mk "eth1" .pynone (.ip ⟨[10, 0, 0, 2]⟩) .pynone)]).interface_by_ipaddr
        (.str "10.0.0.999") = .error .AddressFormatError ∧
    (LLNetBase.mk none
        [("eth0", Interface.mk "eth0" .pynone (.ip ⟨[10, 0, 0, 1]⟩) .pynone),
         ("eth1", Interface.mk "eth1" .pynone (.ip ⟨[10, 0, 0, 2]⟩) .pynone)]).interface_by_ipaddr
        (.str "10.0.0.2") =
      .ok (Interface.mk "eth1" .pynone (.ip ⟨[10, 0, 0, 2]⟩) .pynone) ∧
    (LLNetBase.mk none []).interface_by_macaddr (.str "aa:bb:cc:dd:ee:ff") =
      .error .UnknownDeviceError := by
  refine ⟨?_, ?_, ?_⟩
  · exact (c3_lookup_by_address
      (LLNetBase.mk none
        [("eth0", Interface.mk "eth0" .pynone (.ip ⟨[10, 0, 0, 1]⟩) .pynone),
         ("eth1", Interface.mk "eth1" .pynone (.ip ⟨[10, 0, 0, 2]⟩) .pynone)])
      "10.0.0.999" "zz" .pynone .pynone ⟨[]⟩ ⟨[]⟩).1 rfl
  · rw [(c3_lookup_by_address
      (LLNetBase.mk none
        [("eth0", Interface.mk "eth0" .pynone (.ip ⟨[10, 0, 0, 1]⟩) .pynone),
         ("eth1", Interface.mk "eth1" .pynone (.ip ⟨[10, 0, 0, 2]⟩) .pynone)])
      "10.0.0.999" "zz" (.str "10.0.0.2") .pynone ⟨[10, 0, 0, 2]⟩ ⟨[]⟩).2.1 rfl]
    rfl
  · exact (c3_lookup_by_address (LLNetBase.mk none [])
      "10.0.0.999" "zz" .pynone (.str "aa:bb:cc:dd:ee:ff") ⟨[]⟩
      ⟨[170, 187, 204, 221, 238, 255]⟩).2.2.2.2.2 rfl
      (by intro i hi; simp [LLNetBase.interfaces] at hi)

/-- C9: the port-named operations are exact aliases of the interface-named
ones: same result, including the same failures, on every node state and
argument. -/
theorem c9_port_aliases (n : LLNetBase) (nm : String) (v w : PyVal) :
    n.ports = n.interfaces ∧
    n.port_by_name nm = n.interface_by_name nm ∧
    n.port_by_ipaddr v = n.interface_by_ipaddr v ∧
    n.port_by_macaddr w = n.interface_by_macaddr w :=
  ⟨rfl, rfl, rfl, rfl⟩

/-- C10: `interfaces()` returns a live view, not a snapshot: the call leaves
the store untouched, enumerating the returned view always yields exactly the
interfaces currently registered, and a registration or removal performed
after the call is visible when the view is subsequently enumerated. -/
theorem c10_interfaces_live_view (σ : NodeStore) (nid : Nat) (nm : String)
    (iface : Interface) :
    ((interfacesCall σ nid).2 = σ) ∧
    (∀ σ2 : NodeStore, ((interfacesCall σ nid).1).enumerate σ2 =
      ((σ2 nid).devinfo).map Prod.snd) ∧
    (((interfacesCall σ nid).1).enumerate
        (storeUpdate σ nid ((σ nid).register nm iface)) =
      (((σ nid).register nm iface).devinfo).map Prod.snd) ∧
    (((interfacesCall σ nid).1).enumerate
        (storeUpdate σ nid
          ⟨(σ nid).devupdown_callback, registryRemove (σ nid).devinfo nm⟩) =
      (registryRemove (σ nid).devinfo nm).map Prod.snd) := by
  refine ⟨rfl, fun σ2 => rfl, ?_, ?_⟩
  · simp [interfacesCall, DictValuesView.enumerate, storeUpdate]
  · simp [interfacesCall, DictValuesView.enumerate, storeUpdate]

/-! ## The shutdown state machine (spec-modelled) -/

theorem step_preserves_shutdown {s : DeviceState} (h : s.isShutdown = true)
    (op : DevOp) : (s.step op).isShutdown = true := by
  cases op with
  | shutdownOp => rfl
  | recvOp =>
    simp only [DeviceState.step, DeviceState.recv_packet, h, if_true]
  | sendOp pkt =>
    simp only [DeviceState.step, DeviceState.send_packet, h, if_true]
  | deliverOp pkt => exact h

theorem steps_preserve_shutdown {s : DeviceState} (h : s.isShutdown = true) :
    ∀ ops : List DevOp, (s.steps ops).isShutdown = true := by
  intro ops
  induction ops generalizing s with
  | nil => exact h
  | cons op rest ih => exact ih (step_preserves_shutdown h op)

/-- C4: `shutdown()` is idempotent; after a shutdown, every subsequent
`recv_packet` and `send_packet` — however many other operations intervene —
fails with `DeviceShutdown`; the transition to the shutdown state is one-way
and only the shutdown operation drives it. -/
theorem c4_shutdown_contract (s : DeviceState) (ops : List DevOp) (op : DevOp)
    (pkt : Nat) :
    (s.shutdown.shutdown = s.shutdown) ∧
    ((s.shutdown.steps ops).recv_packet = .error .DeviceShutdown) ∧
    ((s.shutdown.steps ops).send_packet pkt = .error .DeviceShutdown) ∧
    (s.isShutdown = true → (s.step op).isShutdown = true) ∧
    (op ≠ .shutdownOp → (s.step op).isShutdown = s.isShutdown) := by
  have hdown : (s.shutdown.steps ops).isShutdown = true :=
    steps_preserve_shutdown rfl ops
  refine ⟨rfl, ?_, ?_, fun h => step_preserves_shutdown h op, ?_⟩
  · simp [DeviceState.recv_packet, hdown]
  · simp [DeviceState.send_packet, hdown]
  · intro hne
    cases op with
    | shutdownOp => exact absurd rfl hne
    | recvOp =>
      simp only [DeviceState.step, DeviceState.recv_packet]
      rcases Bool.eq_false_or_eq_true s.isShutdown with ht | hf
      · simp [ht]
      · simp only [hf, Bool.false_eq_true, if_false]
        cases s.inbox with
        | nil => exact hf
        | cons p rest => rfl
    | sendOp p =>
      simp only [DeviceState.step, DeviceState.send_packet]
      rcases Bool.eq_false_or_eq_true s.isShutdown with ht | hf
      · simp [ht]
      · simp [hf]
    | deliverOp p => rfl

/-- The shutdown contract witnessed: a second shutdown is a no-op, a receive
after shutdown and an intervening packet delivery fails with
`DeviceShutdown`, and a receive on an active device does not flip the
shutdown flag. -/
theorem c4_shutdown_contract_witness :
    ((DeviceState.mk false [7]).shutdown.shutdown =
      (DeviceState.mk false [7]).shutdown) ∧
    (((DeviceState.mk false [7]).shutdown.steps [.deliverOp 3]).recv_packet =
      .error .DeviceShutdown) ∧
    (((DeviceState.mk false [7]).step .recvOp).isShutdown =
      (DeviceState.mk false [7]).isShutdown) ∧
    (((DeviceState.mk true []).step (.sendOp 5)).isShutdown = true) :=
  ⟨(c4_shutdown_contract (DeviceState.mk false [7]) [.deliverOp 3] .recvOp 0).1,
   (c4_shutdown_contract (DeviceState.mk false [7]) [.deliverOp 3] .recvOp 0).2.1,
   (c4_shutdown_contract (DeviceState.mk false [7]) [.deliverOp 3] .recvOp 0).2.2.2.2
     (by intro h; cases h),
   (c4_shutdown_contract (DeviceState.mk true []) [] (.sendOp 5) 0).2.2.2.1 rfl⟩
